import Mathlib

/-!
Verification of the notes-app data layer.

The development shallowly embeds the repository's Notes Data Layer:

* `notesService` models `src/services/notesService.ts` (the implemented
  version of the file): each operation is a pure function from the note
  arguments and the HTTP response it receives to the value it resolves
  with or the error it rethrows.  HTTP responses are modelled by
  `FetchResponse`; parsed JSON bodies by `Json`.
* `NotesContext` models the store in `src/context/NotesContext.tsx`:
  `StoreState` is the provider's React state (`notes`, `loading`,
  `error`), and each operation is a pure function from the current state
  and the outcome of the remote call it awaits to the next state, the
  result/error delivered to the caller, and the list of remote requests
  it issued.
* `filteredNotes` models the search filter of `src/pages/Home.tsx`.

JavaScript peculiarities are modelled explicitly: `Json.getData` models
the check `result && typeof result === "object" && "data" in result`;
`jsIncludes` models `String.prototype.includes`; `String.toLower` stands
for `toLowerCase` (they agree on the ASCII strings appearing in the
claims).
-/

namespace NotesApp

/-- The `Note` interface of `NotesContext.tsx`: `id`, `title`,
`subheading`, `content`.  JS numbers are modelled as `Int` (ids are
integers: `Date.now()` values and server ids). -/
structure Note where
  id : Int
  title : String
  subheading : String
  content : String
deriving DecidableEq, Repr

/-- `Omit<Note, "id">`: the caller-supplied fields of a note. -/
structure NoteFields where
  title : String
  subheading : String
  content : String
deriving DecidableEq, Repr

/-- `{ ...note, id }`: merge an id into the fields, as in
`const newNote: Note = { ...note, id: Date.now() }` (store `addNote`),
`{ ...updatedNote, id }` (store `updateNote`) and
`const updatedNote: Note = { ...note, id }` (service `updateNote`). -/
def NoteFields.withId (note : NoteFields) (id : Int) : Note :=
  { id := id, title := note.title, subheading := note.subheading, content := note.content }

/-- Parsed JSON values, as produced by `response.json()`. -/
inductive Json where
  | null
  | bool (b : Bool)
  | num (n : Int)
  | str (s : String)
  | arr (elems : List Json)
  | obj (fields : List (String × Json))

/-- The JS test `result && typeof result === "object" && "data" in result`
followed by the read `result.data`: it yields a value exactly when the
parsed body is a non-null object with a `data` property.  JS arrays have
no `data` property, and primitives and `null` fail the guard, so only
`Json.obj` can succeed. -/
def Json.getData : Json → Option Json
  | .obj fields => fields.lookup "data"
  | _ => none

/-- Serialization of a note, for modelling the fallback `return note`
of the service operations inside a `Json`-valued result. -/
def Note.toJson (n : Note) : Json :=
  .obj [("id", .num n.id), ("title", .str n.title),
        ("subheading", .str n.subheading), ("content", .str n.content)]

/-- The outcome of one `fetch` call as the service code observes it:
either the transport fails (`fetch` rejects), or a response arrives with
an `ok` flag, a status code, and a body that `response.json()` either
parses (`some`) or fails to parse (`none`). -/
inductive FetchResponse where
  | networkFailure
  | response (ok : Bool) (status : Nat) (body : Option Json)

/-- The message of `new Error("HTTP error! status: " + status)` thrown on
a non-ok response. -/
def httpErrorMessage (status : Nat) : String :=
  "HTTP error! status: " ++ toString status

namespace notesService

/-- `notesService.getAllNotes` of `notesService.ts`: on a rejected fetch
or non-ok status the error propagates (the catch block logs and
rethrows); on success the body is parsed, and if it is an object whose
`data` property is an array that array is returned, otherwise the empty
array. A body that is not valid JSON makes `response.json()` throw,
which also propagates. -/
def getAllNotes : FetchResponse → Except String (List Json)
  | .networkFailure => .error "NetworkError"
  | .response ok status body =>
    if ok then
      match body with
      | none => .error "SyntaxError: unexpected token"
      | some result =>
        match result.getData with
        | some (.arr data) => .ok data
        | _ => .ok []
    else .error (httpErrorMessage status)

/-- `notesService.addNote`: POSTs the note; on a rejected fetch or
non-ok status the error propagates; on success, if the parsed body has a
`data` property its value is returned (with no further shape check),
otherwise the note that was sent is returned. -/
def addNote (note : Note) : FetchResponse → Except String Json
  | .networkFailure => .error "NetworkError"
  | .response ok status body =>
    if ok then
      match body with
      | none => .error "SyntaxError: unexpected token"
      | some result =>
        match result.getData with
        | some d => .ok d
        | none => .ok note.toJson
    else .error (httpErrorMessage status)

/-- `notesService.updateNote`: builds `updatedNote = { ...note, id }`
client-side, PUTs it, and applies the same response normalization and
fallback as `addNote`. -/
def updateNote (id : Int) (note : NoteFields) (resp : FetchResponse) : Except String Json :=
  let updatedNote : Note := note.withId id
  match resp with
  | .networkFailure => .error "NetworkError"
  | .response ok status body =>
    if ok then
      match body with
      | none => .error "SyntaxError: unexpected token"
      | some result =>
        match result.getData with
        | some d => .ok d
        | none => .ok updatedNote.toJson
    else .error (httpErrorMessage status)

end notesService

/-- The provider's React state: `notes`, `loading`, `error`. -/
structure StoreState where
  notes : List Note
  loading : Bool
  error : Option String
deriving DecidableEq, Repr

/-- The state at mount: `useState<Note[]>([])`, `useState(true)`,
`useState<string | null>(null)`. -/
def initialState : StoreState :=
  { notes := [], loading := true, error := none }

/-- A remote request issued through the Remote Notes Client. -/
inductive Request where
  | fetchAll
  | create (note : Note)
  | update (note : Note)
deriving DecidableEq, Repr

namespace NotesContext

/-- The message the initial-load catch block stores in `error`. -/
def loadErrorMessage : String := "Failed to load notes. Please try again later."

/-- The `fetchNotes` effect run once on mount (`useEffect` with `[]`
deps): sets `loading=true`, `error=null`, awaits
`notesService.getAllNotes()`; on success stores the fetched notes, on
failure stores the user-facing message; `finally` clears `loading`.
The remote outcome is passed in as `remote`; the single `fetchAll`
request issued is returned alongside the next state. -/
def fetchNotes (s : StoreState) (remote : Except String (List Note)) :
    StoreState × List Request :=
  let s1 : StoreState := { s with loading := true, error := none }
  match remote with
  | .ok fetchedNotes => ({ s1 with notes := fetchedNotes, loading := false }, [.fetchAll])
  | .error _ => ({ s1 with error := some loadErrorMessage, loading := false }, [.fetchAll])

/-- `addNote` of the provider: builds `newNote = { ...note, id: Date.now() }`
(the clock reading is the explicit argument `now`), awaits
`notesService.addNote(newNote)` (outcome `remote`; its payload is
discarded), and only on success prepends `newNote` to the collection;
on failure the state is untouched and the error is rethrown. -/
def addNote (s : StoreState) (now : Int) (note : NoteFields) (remote : Except String Json) :
    StoreState × Except String Unit × List Request :=
  let newNote : Note := note.withId now
  match remote with
  | .ok _ => ({ s with notes := newNote :: s.notes }, .ok (), [.create newNote])
  | .error e => (s, .error e, [.create newNote])

/-- `deleteNote` of the provider: filters the note with the given id out
of the collection; purely local, no remote request, cannot throw. -/
def deleteNote (s : StoreState) (id : Int) : StoreState × List Request :=
  ({ s with notes := s.notes.filter (fun note => !(note.id == id)) }, [])

/-- `updateNote` of the provider: awaits
`notesService.updateNote(id, updatedNote)` (outcome `remote`; its
payload, the remote echo, is discarded) and only on success maps the
collection, replacing every note whose id matches with
`{ ...updatedNote, id }`; on failure the state is untouched and the
error is rethrown. -/
def updateNote (s : StoreState) (id : Int) (updatedNote : NoteFields)
    (remote : Except String Json) : StoreState × Except String Unit × List Request :=
  let newNote : Note := updatedNote.withId id
  match remote with
  | .ok _ =>
    ({ s with notes := s.notes.map (fun note => if note.id == id then newNote else note) },
     .ok (), [.update newNote])
  | .error e => (s, .error e, [.update newNote])

/-- `getNote` of the provider: linear lookup by id. -/
def getNote (s : StoreState) (id : Int) : Option Note :=
  s.notes.find? (fun note => note.id == id)

end NotesContext

/-- One store mutation, with the environment inputs it consumes: the
clock reading of an `add` and the outcome of the remote call awaited by
`add`/`update`. -/
inductive Op where
  | add (now : Int) (note : NoteFields) (remote : Except String Json)
  | update (id : Int) (note : NoteFields) (remote : Except String Json)
  | remove (id : Int)

/-- Run one mutation on the state (results and requests dropped). -/
def runOp (s : StoreState) : Op → StoreState
  | .add now note remote => (NotesContext.addNote s now note remote).1
  | .update id note remote => (NotesContext.updateNote s id note remote).1
  | .remove id => (NotesContext.deleteNote s id).1

/-- Run a sequence of mutations left to right. -/
def runOps (s : StoreState) (ops : List Op) : StoreState :=
  ops.foldl runOp s

/-- Every `add` in the sequence had a successful remote outcome. -/
def addsSucceeded (ops : List Op) : Bool :=
  ops.all fun op =>
    match op with
    | .add _ _ (.ok _) => true
    | .add _ _ (.error _) => false
    | _ => true

/-- The mutation, if it is an `add`, is given a clock reading distinct
from the id of every note currently in the collection. -/
def addFresh (s : StoreState) : Op → Bool
  | .add now _ _ => s.notes.all (fun n => !(n.id == now))
  | _ => true

/-- Every `add` in the sequence is given a clock reading distinct from
the id of every note in the collection at the moment it runs. -/
def freshAdds : StoreState → List Op → Bool
  | _, [] => true
  | s, op :: rest => addFresh s op && freshAdds (runOp s op) rest

/-- `String.prototype.includes` on lists of characters: the pattern
occurs as a contiguous run. -/
def charsIncludes (pat : List Char) : List Char → Bool
  | [] => pat.isEmpty
  | c :: rest => pat.isPrefixOf (c :: rest) || charsIncludes pat rest

/-- `s.includes(pat)` for strings. -/
def jsIncludes (s pat : String) : Bool :=
  charsIncludes pat.toList s.toList

/-- `String.prototype.toLowerCase`, character by character (agrees with
it on ASCII, which is all the claims use). -/
def jsToLower (s : String) : String :=
  String.mk (s.toList.map Char.toLower)

/-- The `filteredNotes` computation of `Home.tsx`: keep the notes whose
lower-cased `title`, `subheading` or `content` contains the lower-cased
search query. -/
def filteredNotes (notes : List Note) (searchQuery : String) : List Note :=
  notes.filter fun note =>
    let query := jsToLower searchQuery
    jsIncludes (jsToLower note.title) query ||
      jsIncludes (jsToLower note.subheading) query ||
      jsIncludes (jsToLower note.content) query

/-- Modelled from the spec (display-layer collaborator contract, for the
refinement half of the search claim): a case-insensitive substring match
over `title`, `subheading` and `content`. -/
def caseInsensitiveSubstringMatch (query : String) (n : Note) : Bool :=
  jsIncludes (jsToLower n.title) (jsToLower query) ||
    jsIncludes (jsToLower n.subheading) (jsToLower query) ||
    jsIncludes (jsToLower n.content) (jsToLower query)

/-! ## Theorems -/

/-- Claim C1: when the remote `create` or `update` call rejects, the
store's `addNote`/`updateNote` leave the whole session state (and so
`list()`) exactly as it was before the call, and deliver that same
failure to their caller. -/
theorem C1_failed_mutation_leaves_state_unchanged :
    ∀ (s : StoreState) (now : Int) (note : NoteFields) (id : Int) (e : String),
      (NotesContext.addNote s now note (.error e)).1 = s ∧
      (NotesContext.addNote s now note (.error e)).2.1 = .error e ∧
      (NotesContext.updateNote s id note (.error e)).1 = s ∧
      (NotesContext.updateNote s id note (.error e)).2.1 = .error e := by
  intro s now note id e
  exact ⟨rfl, rfl, rfl, rfl⟩

/-- Claim C3: every successful `addNote` prepends the freshly built note
to the collection, and in particular from an empty collection,
`add(A)` then `add(B)` (both succeeding) leaves `list() = [B, A]`. -/
theorem C3_add_prepends :
    ∀ (s : StoreState) (now : Int) (note : NoteFields) (j : Json)
      (nowA nowB : Int) (A B : NoteFields) (jA jB : Json),
      (NotesContext.addNote s now note (.ok j)).1.notes = note.withId now :: s.notes ∧
      (s.notes = [] →
        ((NotesContext.addNote (NotesContext.addNote s nowA A (.ok jA)).1
            nowB B (.ok jB)).1).notes = [B.withId nowB, A.withId nowA]) := by
  intro s now note j nowA nowB A B jA jB
  refine ⟨rfl, fun h => ?_⟩
  simp [NotesContext.addNote, h]

/-- Witness for C3 at a concrete input: two successful adds on the
empty initial store produce the two notes most-recent-first. -/
theorem C3_add_prepends_witness :
    ((NotesContext.addNote
        (NotesContext.addNote initialState 1 ⟨"A", "a", "x"⟩ (.ok .null)).1
        2 ⟨"B", "b", "y"⟩ (.ok .null)).1).notes
      = [(⟨"B", "b", "y"⟩ : NoteFields).withId 2, (⟨"A", "a", "x"⟩ : NoteFields).withId 1] :=
  (C3_add_prepends initialState 0 ⟨"", "", ""⟩ .null
    1 2 ⟨"A", "a", "x"⟩ ⟨"B", "b", "y"⟩ .null .null).2 rfl

/-- Claim C5: `deleteNote` issues no remote request, leaves `loading`
and `error` alone, keeps exactly the notes whose id differs from the
given one (in place), and on an id matching no note it is a no-op that
returns normally. (It cannot throw: it is a total function.) -/
theorem C5_remove_is_local_and_idempotent :
    ∀ (s : StoreState) (id : Int),
      (NotesContext.deleteNote s id).2 = [] ∧
      (NotesContext.deleteNote s id).1.loading = s.loading ∧
      (NotesContext.deleteNote s id).1.error = s.error ∧
      (∀ n ∈ (NotesContext.deleteNote s id).1.notes, n ∈ s.notes ∧ n.id ≠ id) ∧
      (∀ n ∈ s.notes, n.id ≠ id → n ∈ (NotesContext.deleteNote s id).1.notes) ∧
      ((∀ n ∈ s.notes, n.id ≠ id) → NotesContext.deleteNote s id = (s, [])) := by
  intro s id
  refine ⟨rfl, rfl, rfl, ?_, ?_, ?_⟩
  · intro n hn
    simpa [NotesContext.deleteNote] using hn
  · intro n hn hne
    simp [NotesContext.deleteNote, hn, hne]
  · intro h
    have hf : s.notes.filter (fun note => !(note.id == id)) = s.notes := by
      rw [List.filter_eq_self]
      intro a ha
      simpa using h a ha
    cases s
    simp [NotesContext.deleteNote] at hf ⊢
    exact hf

/-- Witness for C5 at a concrete input: removing id 2 from a store
holding only the note with id 1 changes nothing and issues no request. -/
theorem C5_remove_witness :
    NotesContext.deleteNote
      { notes := [{ id := 1, title := "t", subheading := "s", content := "c" }],
        loading := false, error := none } 2
      = ({ notes := [{ id := 1, title := "t", subheading := "s", content := "c" }],
           loading := false, error := none }, []) :=
  (C5_remove_is_local_and_idempotent _ 2).2.2.2.2.2 (by decide)

/-- Claim C8: at mount the state is `notes=[]`, `loading=true`,
`error` unset; the mount effect issues exactly one `fetchAll` request;
if it succeeds the notes become exactly the fetched collection with
`loading=false` and `error` still unset, and if it fails `error` is set
to the user-facing message with `loading=false` and `notes` still
empty. -/
theorem C8_initial_load_state_machine :
    initialState.notes = [] ∧ initialState.loading = true ∧ initialState.error = none ∧
    (∀ l : List Note,
      NotesContext.fetchNotes initialState (.ok l)
        = ({ notes := l, loading := false, error := none }, [.fetchAll])) ∧
    (∀ e : String,
      NotesContext.fetchNotes initialState (.error e)
        = ({ notes := [], loading := false,
             error := some NotesContext.loadErrorMessage }, [.fetchAll])) :=
  ⟨rfl, rfl, rfl, fun _ => rfl, fun _ => rfl⟩

/-- Replacing every id-match in a list by a note carrying that same id
commutes with the first-match lookup: after the replacement the lookup
finds the replacement exactly when it found a match before. -/
theorem find?_map_replace (l : List Note) (id : Int) (u : Note) (hu : u.id = id) :
    (l.map fun n => if n.id == id then u else n).find? (fun n => n.id == id)
      = (l.find? fun n => n.id == id).map fun _ => u := by
  induction l with
  | nil => rfl
  | cons head tail ih =>
    rw [List.map_cons]
    cases hb : (head.id == id) with
    | false =>
      rw [if_neg (by simp [hb]), List.find?_cons, List.find?_cons]
      simp only [hb]
      exact ih
    | true =>
      have hub : (u.id == id) = true := by simp [hu]
      rw [if_pos rfl, List.find?_cons, List.find?_cons]
      simp only [hb, hub, Option.map_some']

/-- Claim C4: after a successful `updateNote id fields`, given that some
note with that id was present, `getNote id` returns exactly the note
built from the caller-given id and fields — whatever value `j` the
remote echoed back (it is discarded) — the collection keeps its length,
and every position that held an id-matching note now holds the new
note (same position). -/
theorem C4_update_preserves_local_id_and_position :
    ∀ (s : StoreState) (id : Int) (note : NoteFields) (j : Json),
      (NotesContext.getNote s id).isSome = true →
      NotesContext.getNote (NotesContext.updateNote s id note (.ok j)).1 id
          = some (note.withId id) ∧
      (NotesContext.updateNote s id note (.ok j)).1.notes.length = s.notes.length ∧
      (∀ (i : Nat) (hi : i < s.notes.length)
          (hi2 : i < (NotesContext.updateNote s id note (.ok j)).1.notes.length),
        (s.notes.get ⟨i, hi⟩).id = id →
          (NotesContext.updateNote s id note (.ok j)).1.notes.get ⟨i, hi2⟩
            = note.withId id) := by
  intro s id note j h
  refine ⟨?_, by simp [NotesContext.updateNote], ?_⟩
  · show (s.notes.map fun n => if n.id == id then note.withId id else n).find?
        (fun n => n.id == id) = some (note.withId id)
    rw [find?_map_replace s.notes id (note.withId id) rfl]
    obtain ⟨n, hn⟩ := Option.isSome_iff_exists.mp h
    rw [show s.notes.find? (fun n => n.id == id) = some n from hn]
    rfl
  · intro i hi hi2 hid
    simp only [NotesContext.updateNote, List.get_eq_getElem, List.getElem_map] at hi2 ⊢
    simp [List.get_eq_getElem] at hid
    simp [hid]

/-- Witness for C4 at a concrete input: the spec's own example, note id
5 updated to fields X/Y/Z while the remote echoes the number 999. -/
theorem C4_update_witness :
    NotesContext.getNote
      (NotesContext.updateNote
        { notes := [{ id := 5, title := "old", subheading := "o", content := "c" }],
          loading := false, error := none }
        5 ⟨"X", "Y", "Z"⟩ (.ok (.num 999))).1 5
      = some ((⟨"X", "Y", "Z"⟩ : NoteFields).withId 5) :=
  (C4_update_preserves_local_id_and_position
    { notes := [{ id := 5, title := "old", subheading := "o", content := "c" }],
      loading := false, error := none }
    5 ⟨"X", "Y", "Z"⟩ (.num 999) (by decide)).1

/-- Claim C10: a successful `updateNote` keeps the collection's length,
always issues exactly the one `update` request, leaves every position
whose note's id differs from the target untouched, and when no note
matches the id it leaves the whole state untouched and still resolves
without error. -/
theorem C10_update_frame_effect :
    ∀ (s : StoreState) (id : Int) (note : NoteFields) (j : Json),
      (NotesContext.updateNote s id note (.ok j)).1.notes.length = s.notes.length ∧
      (NotesContext.updateNote s id note (.ok j)).2.2 = [.update (note.withId id)] ∧
      (∀ (i : Nat) (hi : i < s.notes.length)
          (hi2 : i < (NotesContext.updateNote s id note (.ok j)).1.notes.length),
        (s.notes.get ⟨i, hi⟩).id ≠ id →
          (NotesContext.updateNote s id note (.ok j)).1.notes.get ⟨i, hi2⟩
            = s.notes.get ⟨i, hi⟩) ∧
      ((∀ n ∈ s.notes, n.id ≠ id) →
        (NotesContext.updateNote s id note (.ok j)).1 = s ∧
        (NotesContext.updateNote s id note (.ok j)).2.1 = .ok ()) := by
  intro s id note j
  refine ⟨by simp [NotesContext.updateNote], rfl, ?_, ?_⟩
  · intro i hi hi2 hne
    simp only [NotesContext.updateNote, List.get_eq_getElem, List.getElem_map] at hi2 ⊢
    simp [List.get_eq_getElem] at hne
    simp [hne]
  · intro h
    obtain ⟨notes, loading, error⟩ := s
    have hm : notes.map (fun n => if n.id == id then note.withId id else n) = notes := by
      have h1 : notes.map (fun n => if n.id == id then note.withId id else n)
          = notes.map (fun n => n) :=
        List.map_congr_left (fun a ha => by simp [h a ha])
      rw [h1]
      exact List.map_id' notes
    exact ⟨congrArg (fun l => StoreState.mk l loading error) hm, rfl⟩

/-- Witness for C10 at a concrete input: updating id 9 in a store whose
only note has id 7 issues the request, changes nothing, and resolves. -/
theorem C10_update_frame_witness :
    (NotesContext.updateNote
        { notes := [{ id := 7, title := "t", subheading := "s", content := "c" }],
          loading := false, error := none }
        9 ⟨"X", "Y", "Z"⟩ (.ok .null)).1
      = { notes := [{ id := 7, title := "t", subheading := "s", content := "c" }],
          loading := false, error := none } ∧
    (NotesContext.updateNote
        { notes := [{ id := 7, title := "t", subheading := "s", content := "c" }],
          loading := false, error := none }
        9 ⟨"X", "Y", "Z"⟩ (.ok .null)).2.1 = .ok () :=
  (C10_update_frame_effect
    { notes := [{ id := 7, title := "t", subheading := "s", content := "c" }],
      loading := false, error := none }
    9 ⟨"X", "Y", "Z"⟩ .null).2.2.2 (by decide)

/-- Claim C6: on a success-status response whose body parsed, the
service's `getAllNotes` returns the body's `data` array when the body
is an object whose `data` property holds an array, and otherwise
resolves with the empty array instead of failing; in particular a body
of one `message` field and no `data` resolves to the empty array. -/
theorem C6_fetchAll_lenient_degradation :
    ∀ (status : Nat) (j : Json) (xs : List Json),
      (j.getData = some (.arr xs) →
        notesService.getAllNotes (.response true status (some j)) = .ok xs) ∧
      ((∀ ys : List Json, j.getData ≠ some (.arr ys)) →
        notesService.getAllNotes (.response true status (some j)) = .ok []) ∧
      notesService.getAllNotes
          (.response true status (some (.obj [("message", .str "ok")]))) = .ok [] := by
  intro status j xs
  refine ⟨fun h => ?_, fun h => ?_, rfl⟩
  · simp [notesService.getAllNotes, h]
  · cases hd : j.getData with
    | none => simp [notesService.getAllNotes, hd]
    | some d =>
      cases d with
      | arr elems => exact absurd hd (h elems)
      | null => simp [notesService.getAllNotes, hd]
      | bool b => simp [notesService.getAllNotes, hd]
      | num n => simp [notesService.getAllNotes, hd]
      | str t => simp [notesService.getAllNotes, hd]
      | obj fields => simp [notesService.getAllNotes, hd]

/-- Witness for C6 at a concrete input: a body with a `data` array
yields exactly that array. -/
theorem C6_fetchAll_witness :
    notesService.getAllNotes
        (.response true 200 (some (.obj [("data", .arr [.num 1])])))
      = .ok [.num 1] :=
  (C6_fetchAll_lenient_degradation 200 (.obj [("data", .arr [.num 1])]) [.num 1]).1 rfl

/-- Claim C7: on a success-status response whose parsed body carries no
`data` property (it does not match the response envelope), the
service's `addNote` returns the note that was sent and `updateNote`
returns the note it built from the caller's id and fields; neither
throws. -/
theorem C7_create_update_echo_fallback :
    ∀ (note : Note) (id : Int) (fields : NoteFields) (status : Nat) (j : Json),
      j.getData = none →
      notesService.addNote note (.response true status (some j)) = .ok note.toJson ∧
      notesService.updateNote id fields (.response true status (some j))
          = .ok ((fields.withId id).toJson) := by
  intro note id fields status j h
  constructor
  · simp [notesService.addNote, h]
  · simp [notesService.updateNote, h]

/-- Witness for C7 at a concrete input: the body is only a `message`
field, so both operations echo the locally-built note. -/
theorem C7_echo_fallback_witness :
    notesService.addNote { id := 4, title := "t", subheading := "s", content := "c" }
        (.response true 200 (some (.obj [("message", .str "ok")])))
      = .ok (Note.toJson { id := 4, title := "t", subheading := "s", content := "c" }) ∧
    notesService.updateNote 4 ⟨"t", "s", "c"⟩
        (.response true 200 (some (.obj [("message", .str "ok")])))
      = .ok (Note.toJson ((⟨"t", "s", "c"⟩ : NoteFields).withId 4)) :=
  C7_create_update_echo_fallback
    { id := 4, title := "t", subheading := "s", content := "c" }
    4 ⟨"t", "s", "c"⟩ 200 (.obj [("message", .str "ok")]) rfl

/-- Claim C9: the Home page filter is exactly the case-insensitive
substring match over `title`, `subheading` and `content`, and on the
spec's two-note list (titles "Learn React" and "Setup Bootstrap", the
remaining fields chosen without the substring) the query "react" keeps
exactly the first note. -/
theorem C9_search_filter_case_insensitive :
    (∀ (notes : List Note) (q : String),
      filteredNotes notes q = notes.filter (caseInsensitiveSubstringMatch q)) ∧
    filteredNotes
        [{ id := 1, title := "Learn React", subheading := "Frontend Development",
           content := "Understand components, props, and state deeply." },
         { id := 3, title := "Setup Bootstrap", subheading := "CSS Framework",
           content := "Integrate Bootstrap styles in the app." }] "react"
      = [{ id := 1, title := "Learn React", subheading := "Frontend Development",
           content := "Understand components, props, and state deeply." }] := by
  refine ⟨fun notes q => rfl, by decide⟩

/-- Replacing every id-match by a note carrying that same id does not
change the sequence of ids of the collection. -/
theorem ids_map_replace (notes : List Note) (id : Int) (u : Note) (hu : u.id = id) :
    (notes.map fun n => if n.id == id then u else n).map Note.id
      = notes.map Note.id := by
  rw [List.map_map]
  apply List.map_congr_left
  intro a _
  by_cases h : a.id = id
  · simp [Function.comp, h, hu]
  · simp [Function.comp, h]

/-- One mutation preserves distinctness of the ids, provided that an
`add` is given a clock reading distinct from every present id. -/
theorem nodup_ids_runOp (s : StoreState) (op : Op)
    (h : (s.notes.map Note.id).Nodup) (hfresh : addFresh s op = true) :
    ((runOp s op).notes.map Note.id).Nodup := by
  cases op with
  | add now note remote =>
    cases remote with
    | error e => exact h
    | ok j =>
      have hnotmem : now ∉ s.notes.map Note.id := by
        simp only [addFresh, List.all_eq_true] at hfresh
        simp only [List.mem_map, not_exists]
        rintro n ⟨hn, hid⟩
        have := hfresh n hn
        simp [hid] at this
      show ((((note.withId now) :: s.notes).map Note.id)).Nodup
      rw [List.map_cons]
      exact List.nodup_cons.mpr ⟨hnotmem, h⟩
  | update id note remote =>
    cases remote with
    | error e => exact h
    | ok j =>
      show (((s.notes.map fun n => if n.id == id then note.withId id else n).map Note.id)).Nodup
      rw [ids_map_replace s.notes id (note.withId id) rfl]
      exact h
  | remove id =>
    exact List.Nodup.sublist ((List.filter_sublist s.notes).map Note.id) h

/-- A run of mutations preserves distinctness of the ids when every
`add` along the run is given a fresh clock reading. -/
theorem nodup_ids_runOps (ops : List Op) :
    ∀ (s : StoreState), (s.notes.map Note.id).Nodup → freshAdds s ops = true →
      ((runOps s ops).notes.map Note.id).Nodup := by
  induction ops with
  | nil => exact fun s h _ => h
  | cons op rest ih =>
    intro s h hf
    rw [freshAdds, Bool.and_eq_true] at hf
    exact ih (runOp s op) (nodup_ids_runOp s op h hf.1) hf.2

/-- Counterexample to claim C2 as stated: two adds whose `Date.now()`
readings coincide (same millisecond) both succeed remotely, yet the
resulting collection holds two notes with the same id 0. -/
theorem C2_counterexample_duplicate_ids :
    addsSucceeded
        [Op.add 0 ⟨"a", "b", "c"⟩ (.ok .null), Op.add 0 ⟨"d", "e", "f"⟩ (.ok .null)]
      = true ∧
    ¬ ((runOps initialState
          [Op.add 0 ⟨"a", "b", "c"⟩ (.ok .null), Op.add 0 ⟨"d", "e", "f"⟩ (.ok .null)]).notes.map
            Note.id).Nodup := by
  exact ⟨by decide, by decide⟩

/-- Claim C2 as amended: after every sequence of mutations from the
initial session state in which every add succeeded remotely AND every
add's clock reading differs from the id of every note present at that
moment, the ids in `list()` are pairwise distinct. -/
theorem C2_amended_unique_ids (ops : List Op)
    (hfresh : freshAdds initialState ops = true)
    (hok : addsSucceeded ops = true) :
    ((runOps initialState ops).notes.map Note.id).Nodup :=
  nodup_ids_runOps ops initialState (by simp [initialState]) hfresh

/-- Witness for the amended C2 at a concrete input: two successful adds
at distinct times followed by an update and a remove keep ids
distinct. -/
theorem C2_amended_unique_ids_witness :
    freshAdds initialState
        [Op.add 1 ⟨"a", "b", "c"⟩ (.ok .null), Op.add 2 ⟨"d", "e", "f"⟩ (.ok .null),
         Op.update 1 ⟨"g", "h", "i"⟩ (.ok .null), Op.remove 9] = true ∧
    addsSucceeded
        [Op.add 1 ⟨"a", "b", "c"⟩ (.ok .null), Op.add 2 ⟨"d", "e", "f"⟩ (.ok .null),
         Op.update 1 ⟨"g", "h", "i"⟩ (.ok .null), Op.remove 9] = true ∧
    ((runOps initialState
        [Op.add 1 ⟨"a", "b", "c"⟩ (.ok .null), Op.add 2 ⟨"d", "e", "f"⟩ (.ok .null),
         Op.update 1 ⟨"g", "h", "i"⟩ (.ok .null), Op.remove 9]).notes.map Note.id).Nodup :=
  ⟨by decide, by decide, C2_amended_unique_ids _ (by decide) (by decide)⟩

end NotesApp
